import Mathlib

/-!
Shallow embedding of the steam-randomiser program (src/main.py).

Network fetches are modelled by passing the fetched JSON payloads as
explicit parameters, and the uniform random choice of the standard
library is modelled by an extra index parameter: random.choice on a
non-empty sequence returns the element at some index below its length,
and raises IndexError on an empty sequence.  Python float percentages
are modelled as exact rationals.
-/

set_option autoImplicit false

/-- Runtime errors the embedded code can raise.  The source defines no
error class of its own for empty selections: random.choice raises
IndexError, a missing dictionary key raises KeyError, and dividing a
float by zero raises ZeroDivisionError. -/
inductive PyError where
  | indexError
  | keyError (k : String)
  | zeroDivisionError
  deriving Repr, DecidableEq

/-- An entry of the owned-games list returned by GetOwnedGames
(appid, name, playtime_forever in minutes). -/
structure OwnedGame where
  appid : Int
  name : String
  playtime_forever : Int
  deriving Repr, DecidableEq

/-- An entry of the global achievement percentages list
(GetGlobalAchievementPercentagesForApp): a name and an unlock percent. -/
structure Stat where
  name : String
  percent : ℚ
  deriving Repr, DecidableEq

/-- An entry of the achievement schema (GetSchemaForGame).  The percent
field is absent (none) until the enrichment loop copies it from a
matching stat; extra stands for all remaining JSON fields, which the
program never touches. -/
structure SchemaItem where
  name : String
  displayName : String
  percent : Option ℚ
  extra : List (String × String)
  deriving Repr, DecidableEq

/-- Model of random.choice (main.py lines 57 and 92): on a non-empty
sequence it returns the element at the index the generator drew, on an
empty sequence it raises IndexError. -/
def randomChoice {α : Type} (l : List α) (i : Nat) : Except PyError α :=
  if h : 0 < l.length then .ok (l.get ⟨i % l.length, Nat.mod_lt i h⟩)
  else .error .indexError

/-- The candidate list of pick_random_game (main.py lines 52-55): the
whole owned-games list when all_games is set, otherwise the games whose
playtime_forever is at most time_played. -/
def selectable_games (owned_games : List OwnedGame) (all_games : Bool)
    (time_played : Int) : List OwnedGame :=
  if all_games then owned_games
  else owned_games.filter (fun game => game.playtime_forever ≤ time_played)

/-- pick_random_game (main.py lines 45-57) after the two fetches: the
owned-games list obtained from the API is a parameter, and the random
draw is the index parameter choice. -/
def pick_random_game (owned_games : List OwnedGame) (all_games : Bool)
    (time_played : Int) (choice : Nat) : Except PyError OwnedGame :=
  randomChoice (selectable_games owned_games all_games time_played) choice

/-- Truth value of re.match of the pattern caret [0-9] 17 dollar
(main.py line 34): the whole string is 17 ASCII digits, or, because the
dollar anchor also matches just before a final newline, 17 digits
followed by one trailing newline. -/
def bareMatch (s : String) : Bool :=
  decide ((s.data.length = 17 ∧ s.data.all Char.isDigit = true) ∨
    (s.data.length = 18 ∧ (s.data.take 17).all Char.isDigit = true ∧
      s.data.getLast? = some '\n'))

/-- re.search of the pattern profiles/ [0-9] 17 dollar (main.py lines
36-37), returning the captured 17-digit group.  The dollar anchor
matches at the end of the string or just before a single final newline,
so one trailing newline is stripped before the suffix test. -/
def profilesSearch (s : String) : Option String :=
  let l := if s.data.getLast? = some '\n' then s.data.dropLast else s.data
  if 26 ≤ l.length ∧ (l.drop (l.length - 17)).all Char.isDigit = true ∧
      (l.take (l.length - 17)).drop (l.length - 26) = "profiles/".data then
    some (String.mk (l.drop (l.length - 17)))
  else none

/-- Tail test for the pattern dot-star dollar after the literal id/ :
dot does not match a newline and the dollar anchor matches at the end or
just before a single final newline, so the tail matches when it has no
newline (group is the tail) or exactly one trailing newline (group is
the tail without it). -/
def idTail? (rest : List Char) : Option (List Char) :=
  if rest.all (fun c => decide (c ≠ '\n')) then some rest
  else if rest.getLast? = some '\n' ∧
      rest.dropLast.all (fun c => decide (c ≠ '\n')) = true then
    some rest.dropLast
  else none

/-- Left-to-right scan of re.search for the pattern id/ dot-star dollar
(main.py lines 38-39): at each position, if the literal id/ starts there
and the tail matches, return the captured group, otherwise move one
position right. -/
def idSearchAux : List Char → Option (List Char)
  | [] => none
  | c :: cs =>
    if c = 'i' ∧ cs.take 2 = ['d', '/'] then
      match idTail? (cs.drop 2) with
      | some g => some g
      | none => idSearchAux cs
    else idSearchAux cs

/-- re.search of the pattern id/ dot-star dollar on a string. -/
def idSearch (s : String) : Option String :=
  (idSearchAux s.data).map String.mk

/-- Whether the literal id/ occurs anywhere in a character list. -/
def hasIdSlash : List Char → Bool
  | [] => false
  | c :: cs =>
    if c = 'i' ∧ cs.take 2 = ['d', '/'] then true else hasIdSlash cs

/-- Which branch of parse_id_input (main.py lines 32-42) fires: either a
direct 17-digit identifier, or a vanity name to resolve through the API. -/
inductive IdDecision where
  | direct (id : String)
  | vanity (name : String)
  deriving Repr, DecidableEq

/-- The branch structure of parse_id_input (main.py lines 32-42):
bare 17-digit input is returned unchanged, a profiles URL yields its
captured digit group, an id/ URL yields the captured vanity group, and
anything else is treated whole as a vanity name. -/
def parse_id_decision (id_input : String) : IdDecision :=
  if bareMatch id_input then .direct id_input
  else
    match profilesSearch id_input with
    | some digits => .direct digits
    | none =>
      match idSearch id_input with
      | some vanity => .vanity vanity
      | none => .vanity id_input

/-- parse_id_input with the vanity lookup (get_id_from_vanity) supplied
as an oracle; the second component records the arguments of every
vanity-lookup call the function makes, in order. -/
def parse_id_input (lookup : String → String) (id_input : String) :
    String × List String :=
  match parse_id_decision id_input with
  | .direct i => (i, [])
  | .vanity v => (lookup v, [v])

/-- The rarity filter of get_random_achievement (main.py line 81): the
stats whose percent, scaled by the modifier, reaches the cutoff. -/
def rarity_candidates (achievements : List Stat) (modifier cutoff : ℚ) :
    List Stat :=
  achievements.filter (fun achievement => cutoff ≤ achievement.percent * modifier)

/-- One step of the enrichment loop (main.py lines 82-86) for a single
schema item: the inner loop scans the stats in order and, at the first
stat with the same name, assigns its percent to the item and breaks. -/
def enrichItem (achievements : List Stat) (item : SchemaItem) : SchemaItem :=
  match achievements.find? (fun stat => item.name == stat.name) with
  | some stat => { item with percent := some stat.percent }
  | none => item

/-- The whole enrichment loop (main.py lines 82-86).  Its state is the
pair of both lists; the loop reads the stats and assigns only the
percent key of schema items, so the stats component is returned as it
came in. -/
def enrich_loop (achievements : List Stat)
    (schema_achievements : List SchemaItem) :
    List Stat × List SchemaItem :=
  (achievements, schema_achievements.map (enrichItem achievements))

/-- Reading the percent key of a schema item (main.py line 88): a
KeyError when enrichment never populated it. -/
def getPercentKey (item : SchemaItem) : Except PyError ℚ :=
  match item.percent with
  | some p => .ok p
  | none => .error (.keyError "percent")

/-- The key extraction of sorted (main.py line 88): sorted evaluates
the key function on every element in list order before comparing, so
the first item without a percent key raises the KeyError. -/
def computeKeys : List SchemaItem → Except PyError (List (SchemaItem × ℚ))
  | [] => .ok []
  | item :: rest =>
    match getPercentKey item with
    | .error e => .error e
    | .ok p =>
      match computeKeys rest with
      | .error e => .error e
      | .ok pairs => .ok ((item, p) :: pairs)

/-- The ascii encode with replacement (main.py line 90): every character
outside the ASCII range prints as a question mark. -/
def asciiReplace (s : String) : String :=
  String.mk (s.data.map (fun c => if c.toNat ≤ 127 then c else '?'))

/-- Rendering of the percent to one decimal place (main.py line 90),
approximating the printf rounding by exact half-up rounding on the
rational. -/
def formatTenths (q : ℚ) : String :=
  let n : Int := round (q * 10)
  (if n < 0 then "-" else "") ++
    toString (n.natAbs / 10) ++ "." ++ toString (n.natAbs % 10)

/-- One line of the achievement listing (main.py line 90). -/
def renderLine (x : SchemaItem × ℚ) : String :=
  asciiReplace x.1.displayName ++ ": " ++ formatTenths x.2 ++ "%"

/-- The display-name lookup of main.py lines 93-97: the loop has no
break, so the last schema item with the selected name wins, and the
empty string stands when none matches. -/
def find_display_name (schema_achievements : List SchemaItem)
    (name : String) : String :=
  schema_achievements.foldl
    (fun acc item => if item.name == name then item.displayName else acc) ""

deriving instance DecidableEq for Except

/-- The observable outcome of one run of get_random_achievement:
whether the schema endpoint was called, the lines printed, and the
returned value (none for the early no-achievements return, some display
name otherwise) or the error raised. -/
structure AchievementRun where
  schemaCalled : Bool
  output : List String
  result : Except PyError (Option String)
  deriving Repr, DecidableEq

/-- get_random_achievement (main.py lines 72-97) after the two fetches:
the global percentages list and the schema achievements list are
parameters, and the random draw is the index parameter choice.  The
cutoff parameter defaults to 80 at the call site (main.py line 121
leaves it at its declared default). -/
def get_random_achievement (achievements : List Stat)
    (schema_achievements : List SchemaItem) (choice : Nat)
    (cutoff : ℚ) : AchievementRun :=
  match achievements with
  | [] =>
    { schemaCalled := false
      output := ["No achievements for this game"]
      result := .ok none }
  | a0 :: _ =>
    if a0.percent = 0 then
      { schemaCalled := true, output := [], result := .error .zeroDivisionError }
    else
      let modifier : ℚ := 100 / a0.percent
      let candidates := rarity_candidates achievements modifier cutoff
      let enriched := (enrich_loop achievements schema_achievements).2
      match computeKeys enriched with
      | .error e => { schemaCalled := true, output := [], result := .error e }
      | .ok pairs =>
        let listing :=
          ((List.insertionSort (fun a b => a.2 ≤ b.2) pairs).reverse).map renderLine
        match randomChoice candidates choice with
        | .error e =>
          { schemaCalled := true, output := listing, result := .error e }
        | .ok chosen =>
          { schemaCalled := true
            output := listing
            result := .ok (some (find_display_name enriched chosen.name)) }

/-- A successful random choice returns a member of the sequence. -/
theorem randomChoice_mem {α : Type} {l : List α} {i : Nat} {a : α}
    (h : randomChoice l i = .ok a) : a ∈ l := by
  unfold randomChoice at h
  split at h
  · injection h with h'
    subst h'
    exact l.get_mem _ _
  · cases h

/-- On a non-empty sequence the random choice always succeeds. -/
theorem randomChoice_ok_of_ne_nil {α : Type} {l : List α} (i : Nat)
    (h : l ≠ []) : ∃ a, randomChoice l i = .ok a := by
  refine ⟨l.get ⟨i % l.length, Nat.mod_lt i (List.length_pos.mpr h)⟩, ?_⟩
  unfold randomChoice
  rw [dif_pos (List.length_pos.mpr h)]

/-- C1 (counterexample): on an empty owned-games list with all_games
false and threshold 0 the candidate set is empty, and pick_random_game
does not surface a dedicated empty-selection error: it crashes in the
underlying random-choice call with its IndexError. -/
theorem c1_counterexample :
    pick_random_game [] false 0 0 = Except.error PyError.indexError ∧
    pick_random_game [] false 0 0 = randomChoice ([] : List OwnedGame) 0 :=
  ⟨rfl, rfl⟩

/-- C1 (amended): for every owned-games list and threshold, when the
candidate set produced by the filtering step is empty, pick_random_game
fails with the IndexError of the underlying random-choice call; the
source defines no EmptySelectionError guard. -/
theorem c1_empty_candidates_index_error (owned_games : List OwnedGame)
    (all_games : Bool) (time_played : Int) (choice : Nat)
    (h : selectable_games owned_games all_games time_played = []) :
    pick_random_game owned_games all_games time_played choice =
      Except.error PyError.indexError := by
  unfold pick_random_game randomChoice
  rw [h]
  rfl

/-- C1 witness: the amended theorem applied to a library whose single
game has been played. -/
theorem c1_empty_candidates_index_error_witness :
    selectable_games [⟨1, "g", 5⟩] false 0 = [] ∧
    pick_random_game [⟨1, "g", 5⟩] false 0 3 =
      Except.error PyError.indexError :=
  ⟨rfl, c1_empty_candidates_index_error [⟨1, "g", 5⟩] false 0 3 rfl⟩

/-- C3: with all_games true the candidate set is the full owned-games
list; with all_games false it is exactly the games whose
playtime_forever is at most time_played, hence exactly the games with
playtime_forever equal to zero when the threshold is zero; and any game
pick_random_game returns is a member of the candidate set. -/
theorem c3_game_selector (owned_games : List OwnedGame) (all_games : Bool)
    (time_played : Int) (choice : Nat) (g : OwnedGame)
    (ht : 0 ≤ time_played)
    (hng : ∀ x ∈ owned_games, 0 ≤ x.playtime_forever) :
    (all_games = true →
      selectable_games owned_games all_games time_played = owned_games) ∧
    (all_games = false →
      selectable_games owned_games all_games time_played =
        owned_games.filter (fun game => game.playtime_forever ≤ time_played)) ∧
    (all_games = false → time_played = 0 →
      selectable_games owned_games all_games time_played =
        owned_games.filter (fun game => game.playtime_forever = 0)) ∧
    (pick_random_game owned_games all_games time_played choice = .ok g →
      g ∈ selectable_games owned_games all_games time_played) := by
  refine ⟨?_, ?_, ?_, ?_⟩
  · intro h
    simp [selectable_games, h]
  · intro h
    simp [selectable_games, h]
  · intro h h0
    subst h0
    simp only [selectable_games, h, if_neg Bool.false_ne_true]
    apply List.filter_congr
    intro x hx
    have hx0 := hng x hx
    simp only [decide_eq_decide]
    omega
  · intro h
    exact randomChoice_mem h

/-- C3 witness: the theorem applied to a two-game library with one
unplayed game, threshold zero, selecting from unplayed games only. -/
theorem c3_game_selector_witness :
    (⟨1, "a", 0⟩ : OwnedGame) ∈ selectable_games [⟨1, "a", 0⟩, ⟨2, "b", 5⟩] false 0 :=
  (c3_game_selector [⟨1, "a", 0⟩, ⟨2, "b", 5⟩] false 0 0 ⟨1, "a", 0⟩
    (by decide) (by decide)).2.2.2 rfl

/-- C4: on an empty global percentages list, get_random_achievement
prints the no-achievements message, returns no selection, and never
calls the game-schema endpoint. -/
theorem c4_empty_percentages (schema_achievements : List SchemaItem)
    (choice : Nat) (cutoff : ℚ) :
    get_random_achievement [] schema_achievements choice cutoff =
      { schemaCalled := false
        output := ["No achievements for this game"]
        result := .ok none } := rfl

/-- Every error computeKeys raises is the KeyError on the percent key. -/
theorem computeKeys_error_eq {l : List SchemaItem} {e : PyError}
    (h : computeKeys l = .error e) : e = PyError.keyError "percent" := by
  induction l with
  | nil => exact absurd h (by simp [computeKeys])
  | cons x xs ih =>
    cases hx : x.percent with
    | none =>
      simp [computeKeys, getPercentKey, hx] at h
      exact h.symm
    | some p =>
      cases hk : computeKeys xs with
      | error e' =>
        simp [computeKeys, getPercentKey, hx, hk] at h
        subst h
        exact ih hk
      | ok pairs =>
        simp [computeKeys, getPercentKey, hx, hk] at h

/-- If some schema item still has no percent, computeKeys raises the
KeyError on the percent key. -/
theorem computeKeys_error_of_mem {l : List SchemaItem} {item : SchemaItem}
    (hm : item ∈ l) (hp : item.percent = none) :
    computeKeys l = .error (PyError.keyError "percent") := by
  induction l with
  | nil => cases hm
  | cons x xs ih =>
    rcases List.mem_cons.mp hm with h | h
    · subst h
      simp [computeKeys, getPercentKey, hp]
    · cases hx : x.percent with
      | none => simp [computeKeys, getPercentKey, hx]
      | some p => simp [computeKeys, getPercentKey, hx, ih h]

/-- Dropping everything but the length of the right part of an append
yields the right part. -/
theorem drop_append_sublength {α : Type} (A B : List α) :
    (A ++ B).drop ((A ++ B).length - B.length) = B := by
  rw [List.length_append]
  have h : A.length + B.length - B.length = A.length := by omega
  rw [h, List.drop_left]

/-- Taking everything but the length of the right part of an append
yields the left part. -/
theorem take_append_sublength {α : Type} (A B : List α) :
    (A ++ B).take ((A ++ B).length - B.length) = A := by
  rw [List.length_append]
  have h : A.length + B.length - B.length = A.length := by omega
  rw [h, List.take_left]

/-- C6: a string that ends in profiles/ followed by 17 digits resolves
to exactly that 17-digit group, with no vanity-lookup call at all. -/
theorem c6_profiles_url (lookup : String → String) (s pre d : String)
    (hs : s.data = pre.data ++ "profiles/".data ++ d.data)
    (hlen : d.data.length = 17)
    (hdig : d.data.all Char.isDigit = true) :
    parse_id_input lookup s = (d, []) := by
  have h9 : ("profiles/".data).length = 9 := rfl
  have hslen : s.data.length = pre.data.length + 26 := by
    rw [hs, List.length_append, List.length_append, h9, hlen]
  have hdne : d.data ≠ [] := by
    intro h0
    rw [h0] at hlen
    simp at hlen
  obtain ⟨c, hc⟩ : ∃ c, d.data.getLast? = some c := by
    cases hgl : d.data.getLast? with
    | none =>
      have := List.getLast?_isSome (l := d.data)
      rw [hgl] at this
      simp at this
      exact absurd this hdne
    | some c => exact ⟨c, rfl⟩
  have hcdig : c.isDigit = true := by
    have hmem : c ∈ d.data := by
      obtain ⟨hne, heq⟩ := List.mem_getLast?_eq_getLast (l := d.data) (x := c)
        (by rw [Option.mem_def, hc])
      rw [heq]
      exact List.getLast_mem hne
    exact List.all_eq_true.mp hdig c hmem
  have hlast : s.data.getLast? = some c := by
    rw [hs, List.getLast?_append, hc]
    rfl
  have hlnl : ¬ (s.data.getLast? = some '\n') := by
    rw [hlast]
    intro h0
    injection h0 with h0
    subst h0
    exact absurd hcdig (by decide)
  have hbare : bareMatch s = false := by
    unfold bareMatch
    rw [decide_eq_false_iff_not]
    rintro (⟨h17, _⟩ | ⟨h18, _, _⟩) <;> omega
  have hdrop : s.data.drop (s.data.length - 17) = d.data := by
    rw [hs]
    have h1 : (pre.data ++ "profiles/".data ++ d.data).length - 17 =
        (pre.data ++ "profiles/".data ++ d.data).length - d.data.length := by
      rw [hlen]
    rw [h1]
    exact drop_append_sublength _ _
  have htake : (s.data.take (s.data.length - 17)).drop (s.data.length - 26) =
      "profiles/".data := by
    rw [hs]
    have h1 : (pre.data ++ "profiles/".data ++ d.data).length - 17 =
        (pre.data ++ "profiles/".data ++ d.data).length - d.data.length := by
      rw [hlen]
    rw [h1, take_append_sublength]
    have h2 : (pre.data ++ "profiles/".data ++ d.data).length - 26 =
        (pre.data ++ "profiles/".data).length - ("profiles/".data).length := by
      rw [show (pre.data ++ "profiles/".data ++ d.data).length =
        pre.data.length + 26 from by rw [← hs]; exact hslen]
      rw [List.length_append, h9]
      omega
    rw [h2]
    exact drop_append_sublength _ _
  have hprof : profilesSearch s = some d := by
    simp only [profilesSearch]
    rw [if_neg hlnl]
    rw [if_pos ⟨by omega, by rw [hdrop]; exact hdig, htake⟩]
    rw [hdrop]
  simp only [parse_id_input, parse_id_decision, hbare, Bool.false_eq_true,
    if_false, hprof]

/-- C6 witness: the theorem applied to a full profiles URL. -/
theorem c6_profiles_url_witness :
    parse_id_input (fun v => v)
      "https://steamcommunity.com/profiles/76561197960287930" =
      ("76561197960287930", []) :=
  c6_profiles_url (fun v => v)
    "https://steamcommunity.com/profiles/76561197960287930"
    "https://steamcommunity.com/" "76561197960287930" rfl rfl rfl

/-- A false hasIdSlash on a cons gives a false head condition and a
false hasIdSlash on the tail. -/
theorem hasIdSlash_cons_false {c : Char} {cs : List Char}
    (h : hasIdSlash (c :: cs) = false) :
    ¬ (c = 'i' ∧ cs.take 2 = ['d', '/']) ∧ hasIdSlash cs = false := by
  by_cases hC : c = 'i' ∧ cs.take 2 = ['d', '/']
  · rw [hasIdSlash, if_pos hC] at h
    cases h
  · rw [hasIdSlash, if_neg hC] at h
    exact ⟨hC, h⟩

/-- The left-to-right regex scan finds the group after the first
occurrence of the literal id/ when the part before it contains none and
the tail is newline-free. -/
theorem idSearchAux_of_first (p rest : List Char)
    (hp : hasIdSlash p = false)
    (hrest : rest.all (fun c => decide (c ≠ '\n')) = true) :
    idSearchAux (p ++ 'i' :: 'd' :: '/' :: rest) = some rest := by
  induction p with
  | nil =>
    show idSearchAux ('i' :: 'd' :: '/' :: rest) = some rest
    rw [idSearchAux, if_pos ⟨rfl, rfl⟩]
    show (match idTail? rest with
      | some g => some g
      | none => idSearchAux ('d' :: '/' :: rest)) = some rest
    rw [idTail?, if_pos hrest]
  | cons c p' ih =>
    obtain ⟨hC, hp'⟩ := hasIdSlash_cons_false hp
    show idSearchAux (c :: (p' ++ 'i' :: 'd' :: '/' :: rest)) = some rest
    rw [idSearchAux, if_neg ?_]
    · exact ih hp'
    · rintro ⟨hc, htake⟩
      subst hc
      apply hC
      refine ⟨rfl, ?_⟩
      cases p' with
      | nil => simp at htake
      | cons x p'' =>
        cases p'' with
        | nil => simp at htake
        | cons y p''' =>
          simp only [List.cons_append, List.take_succ_cons, List.take_zero] at htake ⊢
          exact htake

/-- C7 (counterexample): for the input id/a with a trailing newline,
which contains id/ and matches neither the bare nor the profiles shape,
the vanity lookup is invoked with a alone, not with the full remainder
a-newline after id/, because the dot of the regex does not match a
newline. -/
theorem c7_counterexample :
    bareMatch "id/a\n" = false ∧
    profilesSearch "id/a\n" = none ∧
    parse_id_input (fun v => String.append "resolved:" v) "id/a\n" =
      ("resolved:a", ["a"]) ∧
    ("a" : String) ≠ "a\n" := by
  refine ⟨rfl, rfl, rfl, by decide⟩

/-- C7 (amended): for every newline-free input string that contains id/
and matches neither the bare-17-digit shape nor the profiles-suffix
shape, the resolver invokes the vanity lookup exactly once, with the
remainder of the string after the first occurrence of id/, and returns
the identifier that lookup yields. -/
theorem c7_vanity_branch (lookup : String → String) (s pre rest : String)
    (hs : s.data = pre.data ++ 'i' :: 'd' :: '/' :: rest.data)
    (hfirst : hasIdSlash pre.data = false)
    (hnl : s.data.all (fun c => decide (c ≠ '\n')) = true)
    (hbare : bareMatch s = false)
    (hprof : profilesSearch s = none) :
    parse_id_input lookup s = (lookup rest, [rest]) := by
  have hrest : rest.data.all (fun c => decide (c ≠ '\n')) = true := by
    rw [hs, List.all_append, List.all_cons, List.all_cons, List.all_cons,
      Bool.and_eq_true, Bool.and_eq_true, Bool.and_eq_true,
      Bool.and_eq_true] at hnl
    exact hnl.2.2.2.2
  have hid : idSearch s = some rest := by
    unfold idSearch
    rw [hs, idSearchAux_of_first pre.data rest.data hfirst hrest]
    rfl
  simp only [parse_id_input, parse_id_decision, hbare, Bool.false_eq_true,
    if_false, hprof, hid]

/-- C7 witness: the amended theorem applied to a vanity URL. -/
theorem c7_vanity_branch_witness :
    parse_id_input (fun _ => "76561197960287930")
      "http://steamcommunity.com/id/gabe" = ("76561197960287930", ["gabe"]) :=
  c7_vanity_branch (fun _ => "76561197960287930")
    "http://steamcommunity.com/id/gabe" "http://steamcommunity.com/" "gabe"
    rfl rfl rfl rfl rfl

/-- find? returns the first element satisfying the predicate when none
of the elements before it does. -/
theorem find?_append_first {α : Type} (p : α → Bool) (pre post : List α)
    (x : α) (hpre : ∀ y ∈ pre, p y = false) (hx : p x = true) :
    (pre ++ x :: post).find? p = some x := by
  induction pre with
  | nil => simp [List.find?_cons_of_pos, hx]
  | cons y ys ih =>
    have hy := hpre y (List.mem_cons_self y ys)
    rw [List.cons_append, List.find?_cons_of_neg _ (by simp [hy])]
    exact ih (fun z hz => hpre z (List.mem_cons_of_mem y hz))

/-- Enrichment keeps the name of a schema item. -/
theorem enrichItem_name (a : List Stat) (item : SchemaItem) :
    (enrichItem a item).name = item.name := by
  unfold enrichItem
  cases a.find? (fun stat => item.name == stat.name) <;> rfl

/-- Enrichment keeps the display name of a schema item. -/
theorem enrichItem_displayName (a : List Stat) (item : SchemaItem) :
    (enrichItem a item).displayName = item.displayName := by
  unfold enrichItem
  cases a.find? (fun stat => item.name == stat.name) <;> rfl

/-- Enrichment keeps every other field of a schema item. -/
theorem enrichItem_extra (a : List Stat) (item : SchemaItem) :
    (enrichItem a item).extra = item.extra := by
  unfold enrichItem
  cases a.find? (fun stat => item.name == stat.name) <;> rfl

/-- A schema item with no matching stat passes through enrichment
unchanged. -/
theorem enrichItem_eq_of_no_match (a : List Stat) (item : SchemaItem)
    (h : ∀ stat ∈ a, stat.name ≠ item.name) : enrichItem a item = item := by
  unfold enrichItem
  rw [List.find?_eq_none.mpr]
  intro stat hstat
  simp only [beq_iff_eq]
  exact fun he => h stat hstat (he.symm)

/-- A schema item whose name matches a stat receives the percent of the
first matching stat. -/
theorem enrichItem_percent_of_first_match (item : SchemaItem)
    (pre : List Stat) (stat : Stat) (post : List Stat)
    (hname : stat.name = item.name)
    (hpre : ∀ s ∈ pre, s.name ≠ item.name) :
    (enrichItem (pre ++ stat :: post) item).percent = some stat.percent := by
  unfold enrichItem
  rw [find?_append_first _ pre post stat ?_ ?_]
  · intro y hy
    simp only [beq_eq_false_iff_ne]
    exact fun he => hpre y hy he.symm
  · simp only [beq_iff_eq]
    exact hname.symm

/-- C5: the enrichment loop returns the stats list exactly as it came
in, keeps the length and order of the schema list, alters neither name
nor display name nor any other field of any schema entry, leaves the
percent of entries with no matching stat untouched, and sets the
percent of a matching entry to the percent of the first stat with that
name. -/
theorem c5_enrichment_frame (achievements : List Stat)
    (schema_achievements : List SchemaItem) :
    (enrich_loop achievements schema_achievements).1 = achievements ∧
    (enrich_loop achievements schema_achievements).2.length =
      schema_achievements.length ∧
    ∀ i item item2, schema_achievements.get? i = some item →
      (enrich_loop achievements schema_achievements).2.get? i = some item2 →
      item2.name = item.name ∧
      item2.displayName = item.displayName ∧
      item2.extra = item.extra ∧
      ((∀ stat ∈ achievements, stat.name ≠ item.name) →
        item2.percent = item.percent) ∧
      (∀ pre stat post, achievements = pre ++ stat :: post →
        stat.name = item.name →
        (∀ s ∈ pre, s.name ≠ item.name) →
        item2.percent = some stat.percent) := by
  refine ⟨rfl, by simp [enrich_loop], ?_⟩
  intro i item item2 h1 h2
  have h2' : item2 = enrichItem achievements item := by
    unfold enrich_loop at h2
    rw [List.get?_map, h1] at h2
    injection h2 with h2
    exact h2.symm
  subst h2'
  refine ⟨enrichItem_name _ _, enrichItem_displayName _ _,
    enrichItem_extra _ _, ?_, ?_⟩
  · intro hno
    rw [enrichItem_eq_of_no_match _ _ hno]
  · intro pre stat post ha hname hpre
    subst ha
    exact enrichItem_percent_of_first_match item pre stat post hname hpre

/-- C5 witness: the frame theorem applied to a single stat matching a
single schema entry. -/
theorem c5_enrichment_frame_witness :
    (enrich_loop [⟨"A", 50⟩] [⟨"A", "dA", none, []⟩]).1 =
      [(⟨"A", 50⟩ : Stat)] ∧
    (⟨"A", "dA", some 50, []⟩ : SchemaItem).percent = some (50 : ℚ) :=
  ⟨(c5_enrichment_frame [⟨"A", 50⟩] [⟨"A", "dA", none, []⟩]).1,
   ((c5_enrichment_frame [⟨"A", 50⟩] [⟨"A", "dA", none, []⟩]).2.2 0
      ⟨"A", "dA", none, []⟩ ⟨"A", "dA", some 50, []⟩ rfl rfl).2.2.2.2
      [] ⟨"A", 50⟩ [] rfl rfl (by simp)⟩

/-- C2: for a non-empty percentages list the modifier is 100 divided by
the percent of the first entry and the candidate set is exactly the
entries whose percent scaled by the modifier reaches the cutoff; on the
list A at 50 and B at 10 with cutoff 80 the modifier is 2, the candidate
set is exactly the A entry, and the full run selects A. -/
theorem c2_modifier_and_candidates (a0 : Stat) (rest : List Stat)
    (cutoff : ℚ) (st : Stat) (h : a0.percent ≠ 0) :
    (st ∈ rarity_candidates (a0 :: rest) (100 / a0.percent) cutoff ↔
      st ∈ a0 :: rest ∧ st.percent * (100 / a0.percent) ≥ cutoff) ∧
    (100 : ℚ) / 50 = 2 ∧
    rarity_candidates [⟨"A", 50⟩, ⟨"B", 10⟩] ((100 : ℚ) / 50) 80 =
      [⟨"A", 50⟩] ∧
    (get_random_achievement [⟨"A", 50⟩, ⟨"B", 10⟩]
        [⟨"A", "Ach A", none, []⟩, ⟨"B", "Ach B", none, []⟩] 0 80).result =
      .ok (some "Ach A") := by
  have hc : rarity_candidates [⟨"A", 50⟩, ⟨"B", 10⟩] ((100 : ℚ) / 50) 80 =
      [⟨"A", 50⟩] := by
    norm_num [rarity_candidates, List.filter_cons]
  refine ⟨?_, by norm_num, hc, ?_⟩
  · simp [rarity_candidates, List.mem_filter, ge_iff_le]
  · simp only [get_random_achievement]
    rw [if_neg (by norm_num : ¬ ((⟨"A", (50 : ℚ)⟩ : Stat).percent = 0))]
    rw [show computeKeys ((enrich_loop [⟨"A", 50⟩, ⟨"B", 10⟩]
        [⟨"A", "Ach A", none, []⟩, ⟨"B", "Ach B", none, []⟩]).2) =
      .ok [(⟨"A", "Ach A", some 50, []⟩, 50),
           (⟨"B", "Ach B", some 10, []⟩, 10)] from rfl]
    rw [hc]
    rw [show randomChoice [(⟨"A", (50 : ℚ)⟩ : Stat)] 0 = .ok ⟨"A", 50⟩ from rfl]
    rfl

/-- C2 witness: the characterization applied to the concrete example of
the specification. -/
theorem c2_modifier_and_candidates_witness :
    (⟨"A", 50⟩ : Stat) ∈
      rarity_candidates [⟨"A", 50⟩, ⟨"B", 10⟩] (100 / (50 : ℚ)) 80 ↔
    (⟨"A", 50⟩ : Stat) ∈ [(⟨"A", 50⟩ : Stat), ⟨"B", 10⟩] ∧
      (50 : ℚ) * (100 / 50) ≥ 80 :=
  (c2_modifier_and_candidates ⟨"A", 50⟩ [⟨"B", 10⟩] 80 ⟨"A", 50⟩
    (by norm_num)).1

/-- The display-name fold either leaves its accumulator because nothing
matches, or yields the display name of some matching item. -/
theorem find_display_name_fold (name : String) (l : List SchemaItem)
    (acc : String) :
    (l.foldl (fun acc item =>
        if item.name == name then item.displayName else acc) acc = acc ∧
      ∀ item ∈ l, item.name ≠ name) ∨
    (∃ item ∈ l, item.name = name ∧
      l.foldl (fun acc item =>
        if item.name == name then item.displayName else acc) acc =
        item.displayName) := by
  induction l generalizing acc with
  | nil => exact Or.inl ⟨rfl, by simp⟩
  | cons x xs ih =>
    by_cases hx : x.name = name
    · rcases ih x.displayName with ⟨he, hall⟩ | ⟨item, hm, hn, he⟩
      · exact Or.inr ⟨x, List.mem_cons_self x xs, hx,
          by simp only [List.foldl_cons, if_pos (beq_iff_eq.mpr hx)]; exact he⟩
      · exact Or.inr ⟨item, List.mem_cons_of_mem x hm, hn,
          by simp only [List.foldl_cons, if_pos (beq_iff_eq.mpr hx)]; exact he⟩
    · rcases ih acc with ⟨he, hall⟩ | ⟨item, hm, hn, he⟩
      · refine Or.inl ⟨?_, ?_⟩
        · simp only [List.foldl_cons,
            if_neg (fun hc => hx (beq_iff_eq.mp hc))]
          exact he
        · intro item him
          rcases List.mem_cons.mp him with h | h
          · subst h; exact hx
          · exact hall item h
      · exact Or.inr ⟨item, List.mem_cons_of_mem x hm, hn, by
          simp only [List.foldl_cons,
            if_neg (fun hc => hx (beq_iff_eq.mp hc))]
          exact he⟩

/-- find_display_name is the empty string when no item matches, and the
display name of some matching item otherwise. -/
theorem find_display_name_spec (l : List SchemaItem) (name : String) :
    (find_display_name l name = "" ∧ ∀ item ∈ l, item.name ≠ name) ∨
    (∃ item ∈ l, item.name = name ∧
      find_display_name l name = item.displayName) :=
  find_display_name_fold name l ""

/-- C8: whenever get_random_achievement returns a display name, the
stat the random choice selected from the rarity-filtered candidate set
is uniquely pinned by the choice index, and the returned string is the
display name of a schema entry whose name equals that selected
candidate's name, or the empty string when no schema entry carries that
name. -/
theorem c8_display_name_lookup (a0 : Stat) (rest : List Stat)
    (schema_achievements : List SchemaItem) (choice : Nat) (cutoff : ℚ)
    (d : String)
    (h : (get_random_achievement (a0 :: rest) schema_achievements choice
        cutoff).result = .ok (some d)) :
    ∃ chosen,
      randomChoice (rarity_candidates (a0 :: rest) (100 / a0.percent) cutoff)
        choice = .ok chosen ∧
      chosen ∈ rarity_candidates (a0 :: rest) (100 / a0.percent) cutoff ∧
      ((∃ item ∈ schema_achievements,
          item.name = chosen.name ∧ d = item.displayName) ∨
       ((∀ item ∈ schema_achievements, item.name ≠ chosen.name) ∧
        d = "")) := by
  simp only [get_random_achievement] at h
  by_cases hz : a0.percent = 0
  · rw [if_pos hz] at h
    cases h
  · rw [if_neg hz] at h
    cases hk : computeKeys
        ((enrich_loop (a0 :: rest) schema_achievements).2) with
    | error e =>
      rw [hk] at h
      cases h
    | ok pairs =>
      rw [hk] at h
      cases hr : randomChoice
          (rarity_candidates (a0 :: rest) (100 / a0.percent) cutoff)
          choice with
      | error e =>
        rw [hr] at h
        cases h
      | ok chosen =>
        rw [hr] at h
        simp only at h
        injection h with h'
        injection h' with h''
        refine ⟨chosen, rfl, randomChoice_mem hr, ?_⟩
        rcases find_display_name_spec
            ((enrich_loop (a0 :: rest) schema_achievements).2)
            chosen.name with ⟨he, hall⟩ | ⟨item, hm, hn, he⟩
        · refine Or.inr ⟨?_, ?_⟩
          · intro item him
            have h1 : enrichItem (a0 :: rest) item ∈
                (enrich_loop (a0 :: rest) schema_achievements).2 :=
              List.mem_map_of_mem _ him
            have h2 := hall _ h1
            rwa [enrichItem_name] at h2
          · rw [← h'', he]
        · rcases List.mem_map.mp hm with ⟨orig, horig, hedef⟩
          refine Or.inl ⟨orig, horig, ?_, ?_⟩
          · rw [← hedef] at hn
            rwa [enrichItem_name] at hn
          · rw [← h'', he, ← hedef, enrichItem_displayName]

/-- C8 witness: the lookup theorem applied to the example run, whose
selected candidate is the stat A and whose returned string is its
display name Ach A. -/
theorem c8_display_name_lookup_witness :
    ∃ chosen,
      randomChoice (rarity_candidates [(⟨"A", 50⟩ : Stat), ⟨"B", 10⟩]
        (100 / (⟨"A", (50 : ℚ)⟩ : Stat).percent) 80) 0 = .ok chosen ∧
      chosen ∈ rarity_candidates [(⟨"A", 50⟩ : Stat), ⟨"B", 10⟩]
        (100 / (⟨"A", (50 : ℚ)⟩ : Stat).percent) 80 ∧
      ((∃ item ∈ [(⟨"A", "Ach A", none, []⟩ : SchemaItem),
          ⟨"B", "Ach B", none, []⟩],
          item.name = chosen.name ∧ "Ach A" = item.displayName) ∨
       ((∀ item ∈ [(⟨"A", "Ach A", none, []⟩ : SchemaItem),
          ⟨"B", "Ach B", none, []⟩], item.name ≠ chosen.name) ∧
        "Ach A" = "")) := by
  apply c8_display_name_lookup ⟨"A", 50⟩ [⟨"B", 10⟩]
    [⟨"A", "Ach A", none, []⟩, ⟨"B", "Ach B", none, []⟩] 0 80 "Ach A"
  have hc : rarity_candidates [⟨"A", 50⟩, ⟨"B", 10⟩] ((100 : ℚ) / 50) 80 =
      [⟨"A", 50⟩] := by
    norm_num [rarity_candidates, List.filter_cons]
  simp only [get_random_achievement]
  rw [if_neg (by norm_num : ¬ ((⟨"A", (50 : ℚ)⟩ : Stat).percent = 0))]
  rw [show computeKeys ((enrich_loop [⟨"A", 50⟩, ⟨"B", 10⟩]
      [⟨"A", "Ach A", none, []⟩, ⟨"B", "Ach B", none, []⟩]).2) =
    .ok [(⟨"A", "Ach A", some 50, []⟩, 50),
         (⟨"B", "Ach B", some 10, []⟩, 10)] from rfl]
  rw [hc]
  rw [show randomChoice [(⟨"A", (50 : ℚ)⟩ : Stat)] 0 = .ok ⟨"A", 50⟩ from rfl]
  rfl

/-- C9: once the listing step is reached (non-empty percentages with a
non-zero leading percent), a schema entry with no percent and no
matching stat makes get_random_achievement fail with the KeyError on
the percent key, printing no listing and producing no selection. -/
theorem c9_missing_stat_key_error (a0 : Stat) (rest : List Stat)
    (schema_achievements : List SchemaItem) (choice : Nat) (cutoff : ℚ)
    (item : SchemaItem) (hz : a0.percent ≠ 0)
    (hm : item ∈ schema_achievements) (hp : item.percent = none)
    (hnostat : ∀ stat ∈ a0 :: rest, stat.name ≠ item.name) :
    get_random_achievement (a0 :: rest) schema_achievements choice cutoff =
      { schemaCalled := true
        output := []
        result := .error (PyError.keyError "percent") } := by
  have hitem : enrichItem (a0 :: rest) item = item :=
    enrichItem_eq_of_no_match _ _ hnostat
  have hmem2 : enrichItem (a0 :: rest) item ∈
      (enrich_loop (a0 :: rest) schema_achievements).2 :=
    List.mem_map_of_mem _ hm
  have hk : computeKeys ((enrich_loop (a0 :: rest) schema_achievements).2) =
      .error (PyError.keyError "percent") :=
    computeKeys_error_of_mem hmem2 (by rw [hitem]; exact hp)
  simp only [get_random_achievement]
  rw [if_neg hz, hk]

/-- C9 witness: the theorem applied to one stat named A and one schema
entry named C with no percent. -/
theorem c9_missing_stat_key_error_witness :
    get_random_achievement [⟨"A", 50⟩] [⟨"C", "dC", none, []⟩] 0 80 =
      { schemaCalled := true
        output := []
        result := .error (PyError.keyError "percent") } :=
  c9_missing_stat_key_error ⟨"A", 50⟩ [] [⟨"C", "dC", none, []⟩] 0 80
    ⟨"C", "dC", none, []⟩ (by norm_num) (by simp) rfl (by decide)

